import Mathlib

/-!
Verification of the ZoKrates IR persistence layer
(`zokrates_ast/src/ir/serialize.rs` and `zokrates_ast/src/common/parameter.rs`).

The development shallowly embeds the binary container format and the
streaming write/read pipeline.  A file is a `List Nat` of byte cells: the
magic, version and `ProgHeader` region are byte-accurate (little-endian
multi-byte integers, one byte per cell), while section payloads use a
self-describing cell encoding standing in for the external `serde_cbor`
structured encoder (a collaborator, specified only at its interface:
self-delimiting, injective records).

Types that live outside the repository slice (`Solver`, `Statement`,
`SolverIndexer`, `UnconstrainedVariableDetector`, the `ProgIterator`
program container, `ModuleMap`, `Span`, the field-element curve ids) are
modelled from the specification, as marked on each definition.
-/

set_option maxRecDepth 8000

namespace Zok

/-- Span is modelled from the spec: source-position metadata
(`common::position`, not part of the slice); diagnostic-only. -/
structure Span where
  start : Nat
  stop : Nat
deriving DecidableEq, Repr

/-- Parameter mirrors `common/parameter.rs`: `span` is excluded from the
derived equality, ordering and hashing by `derivative` attributes. -/
structure Parameter (V : Type) where
  span : Option Span
  id : V
  «private» : Bool
deriving DecidableEq, Repr

/-- Parameter equality as derived in the source: `derivative` compares the
non-ignored fields `(id, private)` in declaration order and skips `span`. -/
def Parameter.beqP {V : Type} (beqV : V → V → Bool) (p q : Parameter V) : Bool :=
  beqV p.id q.id && (p.«private» == q.«private»)

/-- Parameter ordering as derived in the source: lexicographic over the
non-ignored fields `(id, private)`; `span` is skipped. -/
def Parameter.cmpP {V : Type} (cmpV : V → V → Ordering) (p q : Parameter V) : Ordering :=
  (cmpV p.id q.id).then (compare p.«private» q.«private»)

/-- Parameter hashing as derived in the source: the stream of data fed to
the hasher is the non-ignored fields `(id, private)` in order; `span` is
never fed, so it cannot influence the hash. -/
def Parameter.hashFeed {V : Type} (hV : V → List Nat) (p : Parameter V) : List Nat :=
  hV p.id ++ [if p.«private» then 1 else 0]

/-- Solver is modelled from the spec: a named external computation with a
fixed input/output arity, interned by value equality
(`common::solvers::Solver`, not part of the slice).  The `ref` variant is
the dense-index reference that the Solver Indexer rewrites directives to
use instead of the embedded definition. -/
inductive Solver where
  | named (name : Nat) (inArity : Nat) (outArity : Nat)
  | ref (i : Nat)
deriving DecidableEq, Repr

/-- Solver.isRef is true exactly on dense-index references. -/
def Solver.isRef : Solver → Bool
  | .ref _ => true
  | _ => false

/-- Solver.resolve gives the identity a solver field denotes relative to a
solvers table: an embedded definition denotes itself, a dense-index
reference denotes the table entry it points at. -/
def Solver.resolve (solvers : List Solver) : Solver → Option Solver
  | .ref i => solvers[i]?
  | s => some s

/-- Statement is modelled from the spec: a tagged variant over `Constraint`
(inputs are consumed, outputs are produced), `Directive` (invokes a Solver
with input/output variable lists; outputs are produced) and an opaque
pass-through variant (`log`).  Variables are identifiers (`Nat`); the
field-element coefficients of a constraint are opaque cells. -/
inductive Statement where
  | constraint (inputs : List Nat) (outputs : List Nat) (coeffs : List Nat)
  | directive (solver : Solver) (inputs : List Nat) (outputs : List Nat)
  | log (payload : Nat)
deriving DecidableEq, Repr

/-- Statement.isConstraint discriminates the `Constraint` variant, as
`matches!(s, Statement::Constraint(..))` does in `serialize`. -/
def Statement.isConstraint : Statement → Bool
  | .constraint _ _ _ => true
  | _ => false

/-- Prog is modelled from the spec's data model for `ProgIterator`:
arguments, a statement sequence, a return count, a module map (association
list from module-identity hash to module identifier) and a solvers table. -/
structure Prog where
  arguments : List (Parameter Nat)
  statements : List Statement
  returnCount : Nat
  moduleMap : List (Nat × Nat)
  solvers : List Solver
deriving DecidableEq, Repr

/-! ### Solver Indexer and Unconstrained-Variable Detector

Both passes are modelled from the spec (`ir::solver_indexer` and
`ir::check` are not part of the slice).  Each consumes one statement and
returns zero-or-more statements, per the general `Folder` contract. -/

/-- lookupSolver finds the dense index of a solver value in the interned
table, scanning in index order. -/
def lookupSolver : List Solver → Solver → Option Nat
  | [], _ => none
  | x :: xs, sv => if x = sv then some 0 else (lookupSolver xs sv).map (· + 1)

/-- SolverIndexer is modelled from the spec: an insertion-ordered table
from Solver value to dense index, initially empty. -/
structure SolverIndexer where
  solvers : List Solver
deriving DecidableEq, Repr

/-- SolverIndexer.foldStatement is modelled from the spec: a directive
carrying an embedded Solver has the solver interned (first-seen order,
next index = current table size) and is rewritten to reference the dense
index; every other statement — including a directive already holding a
dense-index reference — passes through unchanged. -/
def SolverIndexer.foldStatement (σ : SolverIndexer) (s : Statement) :
    SolverIndexer × List Statement :=
  match s with
  | .directive (.ref i) ins outs => (σ, [.directive (.ref i) ins outs])
  | .directive sv ins outs =>
    match lookupSolver σ.solvers sv with
    | some j => (σ, [.directive (.ref j) ins outs])
    | none => (⟨σ.solvers ++ [sv]⟩, [.directive (.ref σ.solvers.length) ins outs])
  | s => (σ, [s])

/-- UnconstrainedVariableDetector is modelled from the spec: presence
flags distinguishing variables produced (an output of a constraint or
directive) from variables consumed (an input to a constraint). -/
structure UnconstrainedVariableDetector where
  produced : List Nat
  consumed : List Nat
deriving DecidableEq, Repr

/-- UnconstrainedVariableDetector.new is modelled from the spec: the
bookkeeping starts empty (the spec derives all usage from the statement
stream; the program argument mirrors the constructor signature). -/
def UnconstrainedVariableDetector.new (_p : Prog) : UnconstrainedVariableDetector :=
  ⟨[], []⟩

/-- UnconstrainedVariableDetector.foldStatement is modelled from the spec:
usage bookkeeping is updated from the statement's variable roles and the
statement passes through unchanged. -/
def UnconstrainedVariableDetector.foldStatement (δ : UnconstrainedVariableDetector)
    (s : Statement) : UnconstrainedVariableDetector × List Statement :=
  match s with
  | .constraint ins outs cs => (⟨δ.produced ++ outs, δ.consumed ++ ins⟩, [.constraint ins outs cs])
  | .directive sv ins outs => (⟨δ.produced ++ outs, δ.consumed⟩, [.directive sv ins outs])
  | s => (δ, [s])

/-- countUnconstrained counts the distinct variables of `produced` that
never occur in `consumed` (each distinct variable counted once). -/
def countUnconstrained : List Nat → List Nat → Nat
  | [], _ => 0
  | v :: rest, consumed =>
    (if decide (v ∈ rest) || decide (v ∈ consumed) then 0 else 1) + countUnconstrained rest consumed

/-- UnconstrainedVariableDetector.count is the number of unconstrained
variables the detector has accumulated. -/
def UnconstrainedVariableDetector.count (δ : UnconstrainedVariableDetector) : Nat :=
  countUnconstrained δ.produced δ.consumed

/-- UnconstrainedVariableDetector.finalize is modelled from the spec:
success only if no variable was produced but never consumed, otherwise the
count is the error payload. -/
def UnconstrainedVariableDetector.finalize (δ : UnconstrainedVariableDetector) :
    Except Nat Unit :=
  if δ.count = 0 then .ok () else .error δ.count

/-! ### Container format (`ir/serialize.rs`) -/

/-- ZOKRATES_MAGIC mirrors the constant in `serialize.rs`: `ZOK` + 0x00. -/
def ZOKRATES_MAGIC : List Nat := [0x5a, 0x4f, 0x4b, 0]

/-- FILE_VERSION mirrors the constant in `serialize.rs`. -/
def FILE_VERSION : List Nat := [3, 0, 0, 0]

/-- SectionType mirrors the `repr(u32)` enum in `serialize.rs`. -/
inductive SectionType where
  | Parameters
  | Constraints
  | Solvers
  | Modules
deriving DecidableEq, Repr

/-- SectionType.toNat gives the `repr(u32)` discriminant used by
`s.ty as u32` in `ProgHeader::write`. -/
def SectionType.toNat : SectionType → Nat
  | .Parameters => 1
  | .Constraints => 2
  | .Solvers => 3
  | .Modules => 4

/-- SectionType.tryFrom mirrors `TryFrom<u32> for SectionType`; `none`
stands for the `Err("invalid section type")` case. -/
def SectionType.tryFrom : Nat → Option SectionType
  | 1 => some .Parameters
  | 2 => some .Constraints
  | 3 => some .Solvers
  | 4 => some .Modules
  | _ => none

/-- Section mirrors the struct in `serialize.rs`. -/
structure Section where
  ty : SectionType
  offset : Nat
  length : Nat
deriving DecidableEq, Repr

/-- ProgHeader mirrors the struct in `serialize.rs`; `sections` is the
4-entry section table (the fixed length is maintained by construction). -/
structure ProgHeader where
  curveId : List Nat
  constraintCount : Nat
  returnCount : Nat
  sections : List Section
deriving DecidableEq, Repr

/-- u32LE is the little-endian 4-byte encoding written by
`write_u32::<LittleEndian>`. -/
def u32LE (n : Nat) : List Nat :=
  [n % 256, n / 256 % 256, n / 65536 % 256, n / 16777216 % 256]

/-- u64LE is the little-endian 8-byte encoding written by
`write_u64::<LittleEndian>`. -/
def u64LE (n : Nat) : List Nat :=
  [n % 256, n / 256 % 256, n / 65536 % 256, n / 16777216 % 256,
   n / 4294967296 % 256, n / 1099511627776 % 256,
   n / 281474976710656 % 256, n / 72057594037927936 % 256]

/-- Section.write mirrors the per-section loop body of
`ProgHeader::write`: type tag as u32, then offset and length as u64. -/
def Section.write (s : Section) : List Nat :=
  u32LE s.ty.toNat ++ u64LE s.offset ++ u64LE s.length

/-- ProgHeader.write mirrors `ProgHeader::write`: curve id bytes, the two
u32 counts, then the four section entries in order. -/
def ProgHeader.write (h : ProgHeader) : List Nat :=
  h.curveId ++ u32LE h.constraintCount ++ u32LE h.returnCount
    ++ (h.sections.map Section.write).flatten

/-- readBytes models `read_exact` into an `n`-byte buffer: `none` is the
`UnexpectedEof` I/O failure. -/
def readBytes (n : Nat) (l : List Nat) : Option (List Nat × List Nat) :=
  if n ≤ l.length then some (l.take n, l.drop n) else none

/-- readU32 models `read_u32::<LittleEndian>`. -/
def readU32 (l : List Nat) : Option (Nat × List Nat) :=
  match l with
  | b0 :: b1 :: b2 :: b3 :: r => some (b0 + 256 * b1 + 65536 * b2 + 16777216 * b3, r)
  | _ => none

/-- readU64 models `read_u64::<LittleEndian>`. -/
def readU64 (l : List Nat) : Option (Nat × List Nat) :=
  match l with
  | b0 :: b1 :: b2 :: b3 :: b4 :: b5 :: b6 :: b7 :: r =>
    some (b0 + 256 * b1 + 65536 * b2 + 16777216 * b3 + 4294967296 * b4
      + 1099511627776 * b5 + 281474976710656 * b6 + 72057594037927936 * b7, r)
  | _ => none

/-- HeaderError classifies the `std::io::Error` outcomes of
`ProgHeader::read`: `eof` is the `UnexpectedEof` from `read_exact`, the
other three are the `InvalidData` errors the function constructs. -/
inductive HeaderError where
  | eof
  | invalidMagic
  | invalidVersion
  | invalidSectionType
deriving DecidableEq, Repr

/-- HeaderError.isInvalidData is true on the `ErrorKind::InvalidData`
errors (the spec's `InvalidFormat` class) and false on I/O end-of-stream. -/
def HeaderError.isInvalidData : HeaderError → Bool
  | .eof => false
  | _ => true

/-- ProgHeader.readSection mirrors `ProgHeader::read_section`: a u32 tag
validated through `SectionType::try_from`, then offset and length. -/
def ProgHeader.readSection (l : List Nat) : Except HeaderError (Section × List Nat) :=
  match readU32 l with
  | none => .error .eof
  | some (id, l1) =>
    match SectionType.tryFrom id with
    | none => .error .invalidSectionType
    | some ty =>
      match readU64 l1 with
      | none => .error .eof
      | some (off, l2) =>
        match readU64 l2 with
        | none => .error .eof
        | some (len, l3) => .ok (⟨ty, off, len⟩, l3)

/-- ProgHeader.read mirrors `ProgHeader::read`: magic check, version
check, curve id, the two u32 counts, then four section entries whose
individual tags are validated but whose position is never checked. -/
def ProgHeader.read (l : List Nat) : Except HeaderError ProgHeader :=
  match readBytes 4 l with
  | none => .error .eof
  | some (magic, l1) =>
    if magic ≠ ZOKRATES_MAGIC then .error .invalidMagic else
    match readBytes 4 l1 with
    | none => .error .eof
    | some (version, l2) =>
      if version ≠ FILE_VERSION then .error .invalidVersion else
      match readBytes 4 l2 with
      | none => .error .eof
      | some (curveId, l3) =>
        match readU32 l3 with
        | none => .error .eof
        | some (cc, l4) =>
          match readU32 l4 with
          | none => .error .eof
          | some (rc, l5) =>
            match ProgHeader.readSection l5 with
            | .error e => .error e
            | .ok (parameters, l6) =>
              match ProgHeader.readSection l6 with
              | .error e => .error e
              | .ok (constraints, l7) =>
                match ProgHeader.readSection l7 with
                | .error e => .error e
                | .ok (solvers, l8) =>
                  match ProgHeader.readSection l8 with
                  | .error e => .error e
                  | .ok (moduleMap, _) =>
                    .ok ⟨curveId, cc, rc, [parameters, constraints, solvers, moduleMap]⟩

/-- ProgHeader.sectionAt is the positional access `header.sections[i]`
used by `ProgIterator::read`. -/
def ProgHeader.sectionAt (h : ProgHeader) (i : Nat) : Section :=
  h.sections.getD i ⟨.Parameters, 0, 0⟩

/-! ### Structured payload encoding

These model the `serde_cbor` collaborator at its interface: every record
is self-describing (a leading type cell) and self-delimiting, lists are
tagged `7` and length-prefixed.  Decoders are exact inverses on encoder
output and fail on anything else. -/

/-- encodeNatList is the length-prefixed encoding of a bare list of
scalars inside a record. -/
def encodeNatList (xs : List Nat) : List Nat := xs.length :: xs

/-- decodeNatList inverts `encodeNatList`. -/
def decodeNatList : List Nat → Option (List Nat × List Nat)
  | [] => none
  | n :: t => if n ≤ t.length then some (t.take n, t.drop n) else none

/-- encodeSpan encodes the optional span of a parameter. -/
def encodeSpan : Option Span → List Nat
  | none => [0]
  | some sp => [1, sp.start, sp.stop]

/-- decodeSpan inverts `encodeSpan`. -/
def decodeSpan : List Nat → Option (Option Span × List Nat)
  | 0 :: t => some (none, t)
  | 1 :: a :: b :: t => some (some ⟨a, b⟩, t)
  | _ => none

/-- encodeParameter encodes one argument record (span, id, privacy). -/
def encodeParameter (p : Parameter Nat) : List Nat :=
  encodeSpan p.span ++ [p.id, if p.«private» then 1 else 0]

/-- decodeParameter inverts `encodeParameter`. -/
def decodeParameter (l : List Nat) : Option (Parameter Nat × List Nat) :=
  match decodeSpan l with
  | some (sp, v :: 0 :: t) => some (⟨sp, v, false⟩, t)
  | some (sp, v :: 1 :: t) => some (⟨sp, v, true⟩, t)
  | _ => none

/-- encodeSolver encodes one solver record. -/
def encodeSolver : Solver → List Nat
  | .named n a b => [0, n, a, b]
  | .ref i => [1, i]

/-- decodeSolver inverts `encodeSolver`. -/
def decodeSolver : List Nat → Option (Solver × List Nat)
  | 0 :: n :: a :: b :: t => some (.named n a b, t)
  | 1 :: i :: t => some (.ref i, t)
  | _ => none

/-- encodeStatement encodes one statement record with a leading variant
tag (10, 11, 12) disjoint from the list tag 7, so a statement decoder
positioned at a non-statement value fails rather than misparsing. -/
def encodeStatement : Statement → List Nat
  | .constraint ins outs cs =>
    10 :: (encodeNatList ins ++ encodeNatList outs ++ encodeNatList cs)
  | .directive sv ins outs =>
    11 :: (encodeSolver sv ++ encodeNatList ins ++ encodeNatList outs)
  | .log n => [12, n]

/-- decodeStatement inverts `encodeStatement`; it fails on any stream not
positioned at a statement record. -/
def decodeStatement (l : List Nat) : Option (Statement × List Nat) :=
  match l with
  | 10 :: t =>
    match decodeNatList t with
    | none => none
    | some (ins, t1) =>
      match decodeNatList t1 with
      | none => none
      | some (outs, t2) =>
        match decodeNatList t2 with
        | none => none
        | some (cs, t3) => some (.constraint ins outs cs, t3)
  | 11 :: t =>
    match decodeSolver t with
    | none => none
    | some (sv, t1) =>
      match decodeNatList t1 with
      | none => none
      | some (ins, t2) =>
        match decodeNatList t2 with
        | none => none
        | some (outs, t3) => some (.directive sv ins outs, t3)
  | 12 :: n :: t => some (.log n, t)
  | _ => none

/-- encodePair encodes one module-map entry (hash, module id). -/
def encodePair (x : Nat × Nat) : List Nat := [x.1, x.2]

/-- decodePair inverts `encodePair`. -/
def decodePair : List Nat → Option ((Nat × Nat) × List Nat)
  | a :: b :: t => some ((a, b), t)
  | _ => none

/-- encodeList is the structured encoding of a whole sequence: list tag
`7`, length, then the concatenated item records. -/
def encodeList {α : Type} (enc : α → List Nat) (xs : List α) : List Nat :=
  7 :: xs.length :: (xs.map enc).flatten

/-- decodeListGo decodes exactly `n` item records. -/
def decodeListGo {α : Type} (dec : List Nat → Option (α × List Nat)) :
    Nat → List Nat → Option (List α × List Nat)
  | 0, l => some ([], l)
  | n + 1, l =>
    match dec l with
    | none => none
    | some (a, r) =>
      match decodeListGo dec n r with
      | none => none
      | some (xs, r2) => some (a :: xs, r2)

/-- decodeList inverts `encodeList`. -/
def decodeList {α : Type} (dec : List Nat → Option (α × List Nat)) :
    List Nat → Option (List α × List Nat)
  | 7 :: n :: t => decodeListGo dec n t
  | _ => none

/-! ### Writer pipeline (`ProgIterator::serialize`) -/

/-- foldDetector routes a batch of statements through the detector,
flat-mapping the per-statement results, as the inner
`flat_map(|s| unconstrained_variable_detector.fold_statement(s))` does. -/
def foldDetector (δ : UnconstrainedVariableDetector) :
    List Statement → UnconstrainedVariableDetector × List Statement
  | [] => (δ, [])
  | s :: rest =>
    let r1 := δ.foldStatement s
    let r2 := foldDetector r1.1 rest
    (r2.1, r1.2 ++ r2.2)

/-- writeStatements is the statement loop of `ProgIterator::serialize`:
for each statement, the constraint counter is incremented on the incoming
statement, the statement is routed through the Solver Indexer and then the
Unconstrained-Variable Detector, and every resulting statement is encoded
in order.  The result is (final indexer, final detector, constraint count,
statements written). -/
def writeStatements (σ : SolverIndexer) (δ : UnconstrainedVariableDetector) :
    List Statement →
      SolverIndexer × UnconstrainedVariableDetector × Nat × List Statement
  | [] => (σ, δ, 0, [])
  | s :: rest =>
    let c := if s.isConstraint then 1 else 0
    let r1 := σ.foldStatement s
    let r2 := foldDetector δ r1.2
    let r3 := writeStatements r1.1 r2.1 rest
    (r3.1, r3.2.1, c + r3.2.2.1, r2.2 ++ r3.2.2.2)

/-- Prog.folded runs the single write pass over the statement stream with
fresh pass states, exactly as `serialize` sets them up. -/
def Prog.folded (p : Prog) :
    SolverIndexer × UnconstrainedVariableDetector × Nat × List Statement :=
  writeStatements ⟨[]⟩ (UnconstrainedVariableDetector.new p) p.statements

/-- Prog.solverTable is the interned solver list accumulated by the Solver
Indexer during the write pass (`solver_indexer.solvers`). -/
def Prog.solverTable (p : Prog) : List Solver := p.folded.1.solvers

/-- Prog.detectorAfter is the detector state after the write pass. -/
def Prog.detectorAfter (p : Prog) : UnconstrainedVariableDetector := p.folded.2.1

/-- Prog.unconstrainedCount is the number of variables produced but never
consumed over the whole program. -/
def Prog.unconstrainedCount (p : Prog) : Nat := p.detectorAfter.count

/-- Prog.constraintCountW is the `count` accumulated by the write loop. -/
def Prog.constraintCountW (p : Prog) : Nat := p.folded.2.2.1

/-- Prog.writtenStatements is the transformed statement sequence actually
encoded into the Constraints section. -/
def Prog.writtenStatements (p : Prog) : List Statement := p.folded.2.2.2

/-- sizeOfProgHeader is `std::mem::size_of::<ProgHeader>()`, the number of
filler bytes reserved for the header: 12 bytes of ids and counts plus
4 sections of 24 bytes (u32 tag padded to 8-byte alignment), padded to
alignment 8.  Only the first 92 bytes are later overwritten by
`ProgHeader::write`; the rest stays zero. -/
def sizeOfProgHeader : Nat := 112

/-- headerStart is the stream position after magic and version. -/
def headerStart : Nat := 8

/-- paramsOffset is the file offset of the Parameters section: the filler
for the header is reserved at `headerStart`. -/
def paramsOffset : Nat := headerStart + sizeOfProgHeader

/-- Prog.paramsPayload is the Parameters section payload,
`serde_cbor::to_writer(&mut w, &self.arguments)`. -/
def Prog.paramsPayload (p : Prog) : List Nat := encodeList encodeParameter p.arguments

/-- Prog.constraintsPayload is the Constraints section payload: the
concatenation of the encoded transformed statements. -/
def Prog.constraintsPayload (p : Prog) : List Nat :=
  (p.writtenStatements.map encodeStatement).flatten

/-- Prog.solversPayload is the Solvers section payload,
`serde_cbor::to_writer(&mut w, &solver_indexer.solvers)`. -/
def Prog.solversPayload (p : Prog) : List Nat :=
  encodeList encodeSolver p.solverTable

/-- Prog.modulesPayload is the Modules section payload,
`serde_cbor::to_writer(&mut w, &self.module_map)`. -/
def Prog.modulesPayload (p : Prog) : List Nat := encodeList encodePair p.moduleMap

/-- Prog.constraintsOffset is the recorded offset of the Constraints
section. -/
def Prog.constraintsOffset (p : Prog) : Nat := paramsOffset + p.paramsPayload.length

/-- Prog.solversOffset is the recorded offset of the Solvers section. -/
def Prog.solversOffset (p : Prog) : Nat :=
  p.constraintsOffset + p.constraintsPayload.length

/-- Prog.modulesOffset is the recorded offset of the Modules section. -/
def Prog.modulesOffset (p : Prog) : Nat := p.solversOffset + p.solversPayload.length

/-- Prog.header is the real header patched in at `header_start` after all
sections are written.  The fourth (module map) entry is constructed with
`SectionType::Solvers`, exactly as `serialize.rs` line 211 does. -/
def Prog.header (curveId : List Nat) (p : Prog) : ProgHeader :=
  { curveId := curveId,
    constraintCount := p.constraintCountW % 4294967296,
    returnCount := p.returnCount % 4294967296,
    sections :=
      [⟨.Parameters, paramsOffset, p.paramsPayload.length⟩,
       ⟨.Constraints, p.constraintsOffset, p.constraintsPayload.length⟩,
       ⟨.Solvers, p.solversOffset, p.solversPayload.length⟩,
       ⟨.Solvers, p.modulesOffset, p.modulesPayload.length⟩] }

/-- SerializeError is the failure of `serialize`: the spec's
`UnconstrainedVariable(count)` (the source formats it into a boxed error
message). -/
inductive SerializeError where
  | unconstrainedVariable (count : Nat)
deriving DecidableEq, Repr

/-- SerializeOutput pairs the final sink contents with the returned
`Result`: the write pass completes — and the sink holds a fully formed
file with the real header patched in — before the detector is finalized,
so the file exists in both the success and the error case. -/
structure SerializeOutput where
  file : List Nat
  result : Except SerializeError Nat
deriving Repr

/-- Prog.serialize mirrors `ProgIterator::serialize` for the field type
identified by `curveId`: magic, version, reserved header filler (its first
92 bytes later overwritten by the patched real header), the four section
payloads in order, then the detector's finalization mapped onto the
constraint count. -/
def Prog.serialize (curveId : List Nat) (p : Prog) : SerializeOutput :=
  { file :=
      ZOKRATES_MAGIC ++ FILE_VERSION ++ (Prog.header curveId p).write
        ++ List.replicate (sizeOfProgHeader - 92) 0
        ++ p.paramsPayload ++ p.constraintsPayload ++ p.solversPayload ++ p.modulesPayload,
    result :=
      match p.detectorAfter.finalize with
      | .ok _ => .ok p.constraintCountW
      | .error c => .error (.unconstrainedVariable c) }

/-! ### Reader pipeline (`ProgIterator::read`) -/

/-- decodeStatementsGo is the fuelled unfolding of the lazy constraint
decoder: each `next` call decodes one record; a failed decode ends the
sequence with no visible error (`self.s.next().and_then(|v| v.ok())`). -/
def decodeStatementsGo : Nat → List Nat → List Statement
  | 0, _ => []
  | fuel + 1, l =>
    match decodeStatement l with
    | none => []
    | some (s, rest) => s :: decodeStatementsGo fuel rest

/-- decodeStatements is the full sequence yielded by the forward-only lazy
decoder (`UnwrappedStreamDeserializer`) started at a stream position: the
longest decodable prefix of records, errors swallowed as end-of-sequence.
The fuel equals the stream length, which the consumption lemmas show is
always sufficient. -/
def decodeStatements (l : List Nat) : List Statement :=
  decodeStatementsGo l.length l

/-- ReadError classifies the panics of `ProgIterator::read`: the
`assert_eq!(header.curve_id, T::id())` failure and the three
`unwrap`-ed section decode failures. -/
inductive ReadError where
  | curveMismatch
  | cannotReadParameters
  | cannotReadSolvers
  | cannotReadModuleMap
deriving DecidableEq, Repr

/-- Prog.read mirrors `ProgIterator::read` with the caller's field type
fixed by `curveId`: the curve assertion, then the Parameters, Solvers and
Modules sections decoded eagerly at the offsets stored at positions 0, 2
and 3 of the section table, and the Constraints section (position 1)
wrapped as the lazy statement sequence reading from its offset to the end
of the stream. -/
def Prog.read (curveId : List Nat) (file : List Nat) (h : ProgHeader) :
    Except ReadError Prog :=
  if h.curveId ≠ curveId then .error .curveMismatch else
  match decodeList decodeParameter (file.drop (h.sectionAt 0).offset) with
  | none => .error .cannotReadParameters
  | some (arguments, _) =>
    match decodeList decodeSolver (file.drop (h.sectionAt 2).offset) with
    | none => .error .cannotReadSolvers
    | some (solvers, _) =>
      match decodeList decodePair (file.drop (h.sectionAt 3).offset) with
      | none => .error .cannotReadModuleMap
      | some (moduleMap, _) =>
        .ok ⟨arguments, decodeStatements (file.drop (h.sectionAt 1).offset),
          h.returnCount, moduleMap, solvers⟩

/-! ### Round-trip comparison -/

/-- stmtEquiv compares two statements up to solver-index rewriting:
directive solver fields are compared by resolved identity against the
respective solvers lists, everything else by structural equality. -/
def stmtEquiv (sp sq : List Solver) : Statement → Statement → Bool
  | .constraint a b c, .constraint a' b' c' =>
    decide (a = a') && decide (b = b') && decide (c = c')
  | .directive r i o, .directive r' i' o' =>
    decide (Solver.resolve sp r = Solver.resolve sq r') && decide (i = i') && decide (o = o')
  | .log x, .log y => decide (x = y)
  | _, _ => false

/-- stmtsEquiv lifts `stmtEquiv` pointwise to statement sequences. -/
def stmtsEquiv (sp sq : List Solver) : List Statement → List Statement → Bool
  | [], [] => true
  | s :: ss, t :: ts => stmtEquiv sp sq s t && stmtsEquiv sp sq ss ts
  | _, _ => false

/-- progEquiv is program equality up to solver-index rewriting: arguments,
return count and module map structurally, statements through `stmtsEquiv`
with each side's directives resolved against its own solvers list. -/
def progEquiv (p q : Prog) : Bool :=
  decide (p.arguments = q.arguments)
    && stmtsEquiv p.solvers q.solvers p.statements q.statements
    && decide (p.returnCount = q.returnCount)
    && decide (p.moduleMap = q.moduleMap)

/-- roundTripEquiv serializes a program, reads the header back from the
resulting bytes, runs the reader with the same field type, and compares
the result with the original up to solver-index rewriting; `none` when
header parsing or reading fails. -/
def roundTripEquiv (curveId : List Nat) (p : Prog) : Option Bool :=
  match ProgHeader.read (Prog.serialize curveId p).file with
  | .error _ => none
  | .ok h =>
    match Prog.read curveId (Prog.serialize curveId p).file h with
    | .error _ => none
    | .ok q => some (progEquiv p q)

/-- bn128Id is modelled from the spec: the stable 4-byte curve identity of
the Bn128 field type (`zokrates_field`, out of scope; only distinctness
and width matter). -/
def bn128Id : List Nat := [1, 0, 0, 0]

/-- bls12_381Id is modelled from the spec: the stable 4-byte curve
identity of the Bls12-381 field type. -/
def bls12_381Id : List Nat := [2, 0, 0, 0]

/-- ProgHeader.wellFormed states the representability constraints of a
header value: a 4-byte curve id, u32 counts, a 4-entry section table with
u64 offsets and lengths. -/
def ProgHeader.wellFormed (h : ProgHeader) : Prop :=
  h.curveId.length = 4 ∧ h.constraintCount < 4294967296 ∧ h.returnCount < 4294967296
    ∧ h.sections.length = 4
    ∧ ∀ s ∈ h.sections, s.offset < 18446744073709551616 ∧ s.length < 18446744073709551616

instance (h : ProgHeader) : Decidable h.wellFormed := by
  unfold ProgHeader.wellFormed
  infer_instance

/-- stmtNoRef is true when a statement does not already carry a
dense-index solver reference. -/
def stmtNoRef : Statement → Bool
  | .directive (.ref _) _ _ => false
  | _ => true

/-- stmtsNoRef is true when no statement carries a dense-index solver
reference (the state in which the front-end hands programs to the
writer). -/
def stmtsNoRef (ss : List Statement) : Bool := ss.all stmtNoRef

/-- insertSolver is one interning step: keep the table if the solver is
already present, otherwise append it. -/
def insertSolver (tbl : List Solver) (sv : Solver) : List Solver :=
  match lookupSolver tbl sv with
  | some _ => tbl
  | none => tbl ++ [sv]

/-- embeddedSolvers lists the embedded (non-reference) solver values of a
statement sequence in encounter order. -/
def embeddedSolvers : List Statement → List Solver
  | [] => []
  | .directive (.ref _) _ _ :: rest => embeddedSolvers rest
  | .directive sv _ _ :: rest => sv :: embeddedSolvers rest
  | _ :: rest => embeddedSolvers rest

/-- firstSeen folds interning steps over a solver stream. -/
def firstSeen (acc : List Solver) : List Solver → List Solver
  | [] => acc
  | s :: rest => firstSeen (insertSolver acc s) rest

/-! ## Codec lemmas -/

theorem readU32_u32LE (n : Nat) (r : List Nat) :
    readU32 (u32LE n ++ r) = some (n % 4294967296, r) := by
  simp only [u32LE, List.cons_append, List.nil_append, readU32]
  refine congrArg (fun m => some (m, r)) ?_
  omega

theorem readU64_u64LE (n : Nat) (r : List Nat) :
    readU64 (u64LE n ++ r) = some (n % 18446744073709551616, r) := by
  simp only [u64LE, List.cons_append, List.nil_append, readU64]
  refine congrArg (fun m => some (m, r)) ?_
  omega

theorem readBytes_append (n : Nat) (a : List Nat) (h : a.length = n) (b : List Nat) :
    readBytes n (a ++ b) = some (a, b) := by
  subst h
  simp [readBytes, List.take_left, List.drop_left]

theorem decodeNatList_encode (xs r : List Nat) :
    decodeNatList (encodeNatList xs ++ r) = some (xs, r) := by
  simp only [encodeNatList, List.cons_append, decodeNatList]
  rw [if_pos (by simp)]
  rw [List.take_left, List.drop_left]

theorem decodeSpan_encode (sp : Option Span) (r : List Nat) :
    decodeSpan (encodeSpan sp ++ r) = some (sp, r) := by
  cases sp with
  | none => rfl
  | some s => rfl

theorem decodeParameter_encode (p : Parameter Nat) (r : List Nat) :
    decodeParameter (encodeParameter p ++ r) = some (p, r) := by
  obtain ⟨sp, v, b⟩ := p
  cases b <;>
    simp [encodeParameter, decodeParameter, List.append_assoc, decodeSpan_encode]

theorem decodeSolver_encode (sv : Solver) (r : List Nat) :
    decodeSolver (encodeSolver sv ++ r) = some (sv, r) := by
  cases sv with
  | named n a b => rfl
  | ref i => rfl

theorem decodePair_encode (x : Nat × Nat) (r : List Nat) :
    decodePair (encodePair x ++ r) = some (x, r) := rfl

theorem decodeStatement_encode (s : Statement) (r : List Nat) :
    decodeStatement (encodeStatement s ++ r) = some (s, r) := by
  cases s with
  | constraint ins outs cs =>
    simp [encodeStatement, decodeStatement, List.append_assoc, decodeNatList_encode]
  | directive sv ins outs =>
    simp [encodeStatement, decodeStatement, List.append_assoc, decodeSolver_encode,
      decodeNatList_encode]
  | log n => rfl

theorem decodeListGo_encode {α : Type} (enc : α → List Nat)
    (dec : List Nat → Option (α × List Nat))
    (hround : ∀ (x : α) (r : List Nat), dec (enc x ++ r) = some (x, r)) :
    ∀ (xs : List α) (r : List Nat),
      decodeListGo dec xs.length ((xs.map enc).flatten ++ r) = some (xs, r) := by
  intro xs
  induction xs with
  | nil => intro r; simp [decodeListGo]
  | cons x xs ih =>
    intro r
    have hx : (((x :: xs).map enc).flatten ++ r) = enc x ++ ((xs.map enc).flatten ++ r) := by
      simp
    simp only [List.length_cons, hx, decodeListGo, hround, ih]

theorem decodeList_encode {α : Type} (enc : α → List Nat)
    (dec : List Nat → Option (α × List Nat))
    (hround : ∀ (x : α) (r : List Nat), dec (enc x ++ r) = some (x, r))
    (xs : List α) (r : List Nat) :
    decodeList dec (encodeList enc xs ++ r) = some (xs, r) := by
  have hx : encodeList enc xs ++ r = 7 :: xs.length :: ((xs.map enc).flatten ++ r) := by
    simp [encodeList]
  rw [hx]
  simp only [decodeList]
  exact decodeListGo_encode enc dec hround xs r

theorem decodeNatList_length {l r xs : List Nat}
    (h : decodeNatList l = some (xs, r)) : r.length < l.length := by
  cases l with
  | nil => simp [decodeNatList] at h
  | cons n t =>
    simp only [decodeNatList] at h
    split at h
    · cases h
      simp only [List.length_drop, List.length_cons]
      omega
    · cases h

theorem decodeSolver_length {l r : List Nat} {sv : Solver}
    (h : decodeSolver l = some (sv, r)) : r.length < l.length := by
  unfold decodeSolver at h
  split at h <;> cases h <;> simp <;> omega

theorem decodeStatement_length {l r : List Nat} {s : Statement}
    (h : decodeStatement l = some (s, r)) : r.length < l.length := by
  unfold decodeStatement at h
  split at h
  next t =>
    split at h
    next => cases h
    next ins t1 h1 =>
      split at h
      next => cases h
      next outs t2 h2 =>
        split at h
        next => cases h
        next cs t3 h3 =>
          cases h
          have a1 := decodeNatList_length h1
          have a2 := decodeNatList_length h2
          have a3 := decodeNatList_length h3
          simp only [List.length_cons]
          omega
  next t =>
    split at h
    next => cases h
    next sv1 t1 h1 =>
      split at h
      next => cases h
      next ins t2 h2 =>
        split at h
        next => cases h
        next outs t3 h3 =>
          cases h
          have a1 := decodeSolver_length h1
          have a2 := decodeNatList_length h2
          have a3 := decodeNatList_length h3
          simp only [List.length_cons]
          omega
  next n t =>
    cases h
    simp only [List.length_cons]
    omega
  next =>
    cases h

theorem decodeStatementsGo_congr :
    ∀ (f1 f2 : Nat) (l : List Nat), l.length ≤ f1 → l.length ≤ f2 →
      decodeStatementsGo f1 l = decodeStatementsGo f2 l := by
  intro f1
  induction f1 with
  | zero =>
    intro f2 l h1 _
    have hl : l = [] := List.length_eq_zero.mp (Nat.le_zero.mp h1)
    subst hl
    cases f2 with
    | zero => rfl
    | succ g => rfl
  | succ f ih =>
    intro f2 l h1 h2
    cases f2 with
    | zero =>
      have hl : l = [] := List.length_eq_zero.mp (Nat.le_zero.mp h2)
      subst hl
      rfl
    | succ g =>
      cases hd : decodeStatement l with
      | none => simp only [decodeStatementsGo, hd]
      | some pr =>
        obtain ⟨s, r⟩ := pr
        have hlen := decodeStatement_length hd
        simp only [decodeStatementsGo, hd]
        rw [ih g r (by omega) (by omega)]

theorem decodeStatements_of_fail {l : List Nat} (h : decodeStatement l = none) :
    decodeStatements l = [] := by
  unfold decodeStatements
  cases hl : l.length with
  | zero => rfl
  | succ n => simp [decodeStatementsGo, h]

theorem decodeStatements_cons {l r : List Nat} {s : Statement}
    (h : decodeStatement l = some (s, r)) :
    decodeStatements l = s :: decodeStatements r := by
  have hlen := decodeStatement_length h
  unfold decodeStatements
  obtain ⟨n, hn⟩ : ∃ n, l.length = n + 1 := ⟨l.length - 1, by omega⟩
  rw [hn]
  simp only [decodeStatementsGo, h]
  refine congrArg (fun x => s :: x) ?_
  exact decodeStatementsGo_congr n r.length r (by omega) (Nat.le_refl _)

theorem decodeStatement_list_tag (t : List Nat) : decodeStatement (7 :: t) = none := rfl

theorem decodeStatements_encode_stops :
    ∀ (ss : List Statement) (tail : List Nat), decodeStatement tail = none →
      decodeStatements ((ss.map encodeStatement).flatten ++ tail) = ss := by
  intro ss
  induction ss with
  | nil =>
    intro tail h
    simpa using decodeStatements_of_fail h
  | cons s ss ih =>
    intro tail h
    have hx : (((s :: ss).map encodeStatement).flatten ++ tail)
        = encodeStatement s ++ ((ss.map encodeStatement).flatten ++ tail) := by
      simp
    rw [hx, decodeStatements_cons (decodeStatement_encode s _), ih tail h]

/-! ## Header lemmas -/

theorem exists_four {α : Type} {l : List α} (h : l.length = 4) :
    ∃ a b c d, l = [a, b, c, d] := by
  rcases l with _ | ⟨a, _ | ⟨b, _ | ⟨c, _ | ⟨d, t⟩⟩⟩⟩ <;> simp only [List.length_cons,
    List.length_nil] at h
  · omega
  · omega
  · omega
  · omega
  · have ht : t = [] := List.length_eq_zero.mp (by omega)
    exact ⟨a, b, c, d, by rw [ht]⟩

theorem SectionType.tryFrom_toNat (t : SectionType) :
    SectionType.tryFrom t.toNat = some t := by
  cases t <;> rfl

theorem SectionType.toNat_lt (t : SectionType) : t.toNat < 4294967296 := by
  cases t <;> simp [SectionType.toNat]

theorem Section.write_length (s : Section) : (Section.write s).length = 20 := rfl

theorem Section.write_readSection (s : Section)
    (ho : s.offset < 18446744073709551616) (hl : s.length < 18446744073709551616)
    (r : List Nat) :
    ProgHeader.readSection (Section.write s ++ r) = .ok (s, r) := by
  have h1 : Section.write s ++ r
      = u32LE s.ty.toNat ++ (u64LE s.offset ++ (u64LE s.length ++ r)) := by
    simp [Section.write, List.append_assoc]
  rw [h1]
  simp only [ProgHeader.readSection, readU32_u32LE,
    Nat.mod_eq_of_lt (SectionType.toNat_lt s.ty), SectionType.tryFrom_toNat,
    readU64_u64LE, Nat.mod_eq_of_lt ho, Nat.mod_eq_of_lt hl]

theorem ProgHeader.write_length92 (h : ProgHeader) (hc : h.curveId.length = 4)
    (hs : h.sections.length = 4) : h.write.length = 92 := by
  obtain ⟨s0, s1, s2, s3, hsec⟩ := exists_four hs
  simp [ProgHeader.write, hsec, hc, u32LE, Section.write_length]

theorem ProgHeader.read_write (h : ProgHeader) (hwf : h.wellFormed) (rest : List Nat) :
    ProgHeader.read (ZOKRATES_MAGIC ++ FILE_VERSION ++ h.write ++ rest) = .ok h := by
  obtain ⟨hc, hcc, hrc, hs, hb⟩ := hwf
  obtain ⟨cid, cc, rc, secs⟩ := h
  simp only at hc hcc hrc hs hb
  obtain ⟨s0, s1, s2, s3, hsec⟩ := exists_four hs
  subst hsec
  have hb0 := hb s0 (by simp)
  have hb1 := hb s1 (by simp)
  have hb2 := hb s2 (by simp)
  have hb3 := hb s3 (by simp)
  have hstream : ZOKRATES_MAGIC ++ FILE_VERSION
        ++ (ProgHeader.mk cid cc rc [s0, s1, s2, s3]).write ++ rest
      = ZOKRATES_MAGIC ++ (FILE_VERSION ++ (cid ++ (u32LE cc ++ (u32LE rc
          ++ (Section.write s0 ++ (Section.write s1 ++ (Section.write s2
          ++ (Section.write s3 ++ rest)))))))) := by
    simp [ProgHeader.write, List.append_assoc]
  rw [hstream]
  simp only [ProgHeader.read,
    readBytes_append 4 ZOKRATES_MAGIC rfl,
    readBytes_append 4 FILE_VERSION rfl,
    readBytes_append 4 cid hc,
    readU32_u32LE, Nat.mod_eq_of_lt hcc, Nat.mod_eq_of_lt hrc,
    Section.write_readSection s0 hb0.1 hb0.2,
    Section.write_readSection s1 hb1.1 hb1.2,
    Section.write_readSection s2 hb2.1 hb2.2,
    Section.write_readSection s3 hb3.1 hb3.2,
    ne_eq, not_true_eq_false, if_false]

/-! ## Pipeline lemmas -/

theorem UnconstrainedVariableDetector.foldStatement_snd
    (δ : UnconstrainedVariableDetector) (s : Statement) :
    (δ.foldStatement s).2 = [s] := by
  cases s <;> rfl

theorem foldDetector_snd :
    ∀ (ss : List Statement) (δ : UnconstrainedVariableDetector),
      (foldDetector δ ss).2 = ss := by
  intro ss
  induction ss with
  | nil => intro δ; rfl
  | cons s rest ih =>
    intro δ
    simp only [foldDetector, UnconstrainedVariableDetector.foldStatement_snd, ih,
      List.singleton_append]

theorem lookupSolver_getElem :
    ∀ (tbl : List Solver) (sv : Solver) (j : Nat),
      lookupSolver tbl sv = some j → tbl[j]? = some sv := by
  intro tbl
  induction tbl with
  | nil => intro sv j h; cases h
  | cons x xs ih =>
    intro sv j h
    unfold lookupSolver at h
    by_cases hx : x = sv
    · rw [if_pos hx] at h
      cases h
      simp [hx]
    · rw [if_neg hx] at h
      cases hj : lookupSolver xs sv with
      | none => rw [hj] at h; cases h
      | some k =>
        rw [hj] at h
        simp at h
        subst h
        simpa using ih sv k hj

theorem getElem?_append_of_some {l r : List Solver} :
    ∀ {j : Nat} {a : Solver}, l[j]? = some a → (l ++ r)[j]? = some a := by
  induction l with
  | nil => intro j a h; cases h
  | cons x xs ih =>
    intro j a h
    cases j with
    | zero => simpa using h
    | succ k =>
      simp only [List.getElem?_cons_succ] at h
      simp only [List.cons_append, List.getElem?_cons_succ]
      exact ih h

theorem writeStatements_solvers_extend :
    ∀ (ss : List Statement) (σ : SolverIndexer) (δ : UnconstrainedVariableDetector),
      ∃ Δ, (writeStatements σ δ ss).1.solvers = σ.solvers ++ Δ := by
  intro ss
  induction ss with
  | nil => intro σ δ; exact ⟨[], by simp [writeStatements]⟩
  | cons s rest ih =>
    intro σ δ
    cases s with
    | constraint ins outs cs =>
      simpa [writeStatements, SolverIndexer.foldStatement] using
        ih σ (foldDetector δ [Statement.constraint ins outs cs]).1
    | log n =>
      simpa [writeStatements, SolverIndexer.foldStatement] using
        ih σ (foldDetector δ [Statement.log n]).1
    | directive sv ins outs =>
      cases sv with
      | ref i =>
        simpa [writeStatements, SolverIndexer.foldStatement] using
          ih σ (foldDetector δ [Statement.directive (.ref i) ins outs]).1
      | named nm a b =>
        cases hl : lookupSolver σ.solvers (.named nm a b) with
        | some j =>
          simpa [writeStatements, SolverIndexer.foldStatement, hl] using
            ih σ (foldDetector δ [Statement.directive (.ref j) ins outs]).1
        | none =>
          obtain ⟨Δ, hΔ⟩ := ih ⟨σ.solvers ++ [Solver.named nm a b]⟩
            (foldDetector δ [Statement.directive (.ref σ.solvers.length) ins outs]).1
          refine ⟨[Solver.named nm a b] ++ Δ, ?_⟩
          simpa [writeStatements, SolverIndexer.foldStatement, hl, List.append_assoc] using hΔ

theorem writeStatements_equiv (SP : List Solver) :
    ∀ (ss : List Statement) (σ : SolverIndexer) (δ : UnconstrainedVariableDetector)
      (Δ : List Solver), stmtsNoRef ss = true →
      stmtsEquiv SP ((writeStatements σ δ ss).1.solvers ++ Δ) ss
        (writeStatements σ δ ss).2.2.2 = true := by
  intro ss
  induction ss with
  | nil => intro σ δ Δ _; rfl
  | cons s rest ih =>
    intro σ δ Δ hno
    have hno1 : stmtNoRef s = true ∧ stmtsNoRef rest = true := by
      simpa [stmtsNoRef, List.all_cons, Bool.and_eq_true] using hno
    cases s with
    | constraint ins outs cs =>
      simp only [writeStatements, SolverIndexer.foldStatement, foldDetector_snd,
        List.singleton_append, stmtsEquiv, stmtEquiv, Bool.and_eq_true, decide_eq_true_eq]
      refine ⟨?_, ih σ _ Δ hno1.2⟩
      simp
    | log n =>
      simp only [writeStatements, SolverIndexer.foldStatement, foldDetector_snd,
        List.singleton_append, stmtsEquiv, stmtEquiv, Bool.and_eq_true, decide_eq_true_eq]
      refine ⟨?_, ih σ _ Δ hno1.2⟩
      simp
    | directive sv ins outs =>
      cases sv with
      | ref i => exact absurd hno1.1 (by simp [stmtNoRef])
      | named nm a b =>
        cases hl : lookupSolver σ.solvers (.named nm a b) with
        | some j =>
          have hget := lookupSolver_getElem σ.solvers (.named nm a b) j hl
          simp only [writeStatements, SolverIndexer.foldStatement, hl, foldDetector_snd,
            List.singleton_append, stmtsEquiv, Bool.and_eq_true]
          refine ⟨?_, ih σ _ Δ hno1.2⟩
          obtain ⟨Δ', hΔ'⟩ := writeStatements_solvers_extend rest σ
            (foldDetector δ [Statement.directive (.ref j) ins outs]).1
          simp [stmtEquiv, Solver.resolve, hΔ', List.append_assoc,
            getElem?_append_of_some hget]
        | none =>
          simp only [writeStatements, SolverIndexer.foldStatement, hl, foldDetector_snd,
            List.singleton_append, stmtsEquiv, Bool.and_eq_true]
          refine ⟨?_, ih ⟨σ.solvers ++ [Solver.named nm a b]⟩ _ Δ hno1.2⟩
          obtain ⟨Δ', hΔ'⟩ := writeStatements_solvers_extend rest
            ⟨σ.solvers ++ [Solver.named nm a b]⟩
            (foldDetector δ [Statement.directive (.ref σ.solvers.length) ins outs]).1
          have hget : (σ.solvers ++ (Solver.named nm a b :: (Δ' ++ Δ)))[σ.solvers.length]?
              = some (Solver.named nm a b) := by
            have h1 : σ.solvers ++ (Solver.named nm a b :: (Δ' ++ Δ))
                = (σ.solvers ++ [Solver.named nm a b]) ++ (Δ' ++ Δ) := by simp
            rw [h1]
            exact getElem?_append_of_some (by simp)
          simp [stmtEquiv, Solver.resolve, hΔ', List.append_assoc, hget]

theorem writeStatements_count :
    ∀ (ss : List Statement) (σ : SolverIndexer) (δ : UnconstrainedVariableDetector),
      (writeStatements σ δ ss).2.2.1 = ss.countP Statement.isConstraint := by
  intro ss
  induction ss with
  | nil => intro σ δ; rfl
  | cons s rest ih =>
    intro σ δ
    simp only [writeStatements, ih]
    rw [List.countP_cons]
    cases hc : s.isConstraint
    all_goals simp [hc]
    all_goals omega

theorem writeStatements_out_countP :
    ∀ (ss : List Statement) (σ : SolverIndexer) (δ : UnconstrainedVariableDetector),
      ((writeStatements σ δ ss).2.2.2).countP Statement.isConstraint
        = ss.countP Statement.isConstraint := by
  intro ss
  induction ss with
  | nil => intro σ δ; rfl
  | cons s rest ih =>
    intro σ δ
    cases s with
    | constraint ins outs cs =>
      simp [writeStatements, SolverIndexer.foldStatement, foldDetector_snd,
        List.countP_cons, ih, Statement.isConstraint]
    | log n =>
      simp [writeStatements, SolverIndexer.foldStatement, foldDetector_snd,
        List.countP_cons, ih, Statement.isConstraint]
    | directive sv ins outs =>
      cases sv with
      | ref i =>
        simp [writeStatements, SolverIndexer.foldStatement, foldDetector_snd,
          List.countP_cons, ih, Statement.isConstraint]
      | named nm a b =>
        cases hl : lookupSolver σ.solvers (.named nm a b) with
        | some j =>
          simp [writeStatements, SolverIndexer.foldStatement, hl, foldDetector_snd,
            List.countP_cons, ih, Statement.isConstraint]
        | none =>
          simp [writeStatements, SolverIndexer.foldStatement, hl, foldDetector_snd,
            List.countP_cons, ih, Statement.isConstraint]

theorem writeStatements_table :
    ∀ (ss : List Statement) (σ : SolverIndexer) (δ : UnconstrainedVariableDetector),
      (writeStatements σ δ ss).1.solvers = firstSeen σ.solvers (embeddedSolvers ss) := by
  intro ss
  induction ss with
  | nil => intro σ δ; rfl
  | cons s rest ih =>
    intro σ δ
    cases s with
    | constraint ins outs cs =>
      simp [writeStatements, SolverIndexer.foldStatement, embeddedSolvers, ih]
    | log n =>
      simp [writeStatements, SolverIndexer.foldStatement, embeddedSolvers, ih]
    | directive sv ins outs =>
      cases sv with
      | ref i =>
        simp [writeStatements, SolverIndexer.foldStatement, embeddedSolvers, ih]
      | named nm a b =>
        cases hl : lookupSolver σ.solvers (.named nm a b) with
        | some j =>
          simp [writeStatements, SolverIndexer.foldStatement, hl, embeddedSolvers,
            firstSeen, insertSolver, ih]
        | none =>
          simp [writeStatements, SolverIndexer.foldStatement, hl, embeddedSolvers,
            firstSeen, insertSolver, ih]

theorem writeStatements_replicate_solvers (nm a b : Nat) (ins outs : List Nat) :
    ∀ (n : Nat) (δ : UnconstrainedVariableDetector),
      (writeStatements ⟨[Solver.named nm a b]⟩ δ
          (List.replicate n (Statement.directive (.named nm a b) ins outs))).1.solvers
        = [Solver.named nm a b] := by
  intro n
  induction n with
  | zero => intro δ; rfl
  | succ m ih =>
    intro δ
    have hl : lookupSolver [Solver.named nm a b] (.named nm a b) = some 0 := by
      simp [lookupSolver]
    simp [List.replicate_succ, writeStatements, SolverIndexer.foldStatement, hl, ih]

theorem writeStatements_replicate_out (nm a b : Nat) (ins outs : List Nat) :
    ∀ (n : Nat) (δ : UnconstrainedVariableDetector),
      (writeStatements ⟨[Solver.named nm a b]⟩ δ
          (List.replicate n (Statement.directive (.named nm a b) ins outs))).2.2.2
        = List.replicate n (Statement.directive (.ref 0) ins outs) := by
  intro n
  induction n with
  | zero => intro δ; rfl
  | succ m ih =>
    intro δ
    have hl : lookupSolver [Solver.named nm a b] (.named nm a b) = some 0 := by
      simp [lookupSolver]
    simp [List.replicate_succ, writeStatements, SolverIndexer.foldStatement, hl,
      foldDetector_snd, ih]

/-! ## File layout lemmas -/

theorem drop_append_of_length {α : Type} (a b : List α) (n : Nat) (h : a.length = n) :
    (a ++ b).drop n = b := by
  subst h
  exact List.drop_left a b

theorem serialize_file_eq (curveId : List Nat) (p : Prog) :
    (Prog.serialize curveId p).file
      = (ZOKRATES_MAGIC ++ FILE_VERSION ++ (Prog.header curveId p).write
          ++ List.replicate 20 0)
        ++ (p.paramsPayload ++ (p.constraintsPayload
          ++ (p.solversPayload ++ p.modulesPayload))) := by
  simp [Prog.serialize, sizeOfProgHeader, List.append_assoc]

theorem serialize_prefix_length (curveId : List Nat) (p : Prog) (hc : curveId.length = 4) :
    (ZOKRATES_MAGIC ++ FILE_VERSION ++ (Prog.header curveId p).write
      ++ List.replicate 20 0).length = 120 := by
  have hw : (Prog.header curveId p).write.length = 92 :=
    ProgHeader.write_length92 (Prog.header curveId p) hc rfl
  simp [hw, ZOKRATES_MAGIC, FILE_VERSION]

theorem serialize_drop_params (curveId : List Nat) (p : Prog) (hc : curveId.length = 4) :
    (Prog.serialize curveId p).file.drop paramsOffset
      = p.paramsPayload ++ (p.constraintsPayload
          ++ (p.solversPayload ++ p.modulesPayload)) := by
  rw [serialize_file_eq]
  exact drop_append_of_length _ _ _ (serialize_prefix_length curveId p hc)

theorem serialize_drop_constraints (curveId : List Nat) (p : Prog) (hc : curveId.length = 4) :
    (Prog.serialize curveId p).file.drop p.constraintsOffset
      = p.constraintsPayload ++ (p.solversPayload ++ p.modulesPayload) := by
  have hx : (Prog.serialize curveId p).file
      = ((ZOKRATES_MAGIC ++ FILE_VERSION ++ (Prog.header curveId p).write
          ++ List.replicate 20 0) ++ p.paramsPayload)
        ++ (p.constraintsPayload ++ (p.solversPayload ++ p.modulesPayload)) := by
    rw [serialize_file_eq]
    simp only [List.append_assoc]
  rw [hx]
  refine drop_append_of_length _ _ _ ?_
  rw [List.length_append, serialize_prefix_length curveId p hc]
  simp only [Prog.constraintsOffset, paramsOffset, headerStart, sizeOfProgHeader]

theorem serialize_drop_solvers (curveId : List Nat) (p : Prog) (hc : curveId.length = 4) :
    (Prog.serialize curveId p).file.drop p.solversOffset
      = p.solversPayload ++ p.modulesPayload := by
  have hx : (Prog.serialize curveId p).file
      = (((ZOKRATES_MAGIC ++ FILE_VERSION ++ (Prog.header curveId p).write
          ++ List.replicate 20 0) ++ p.paramsPayload) ++ p.constraintsPayload)
        ++ (p.solversPayload ++ p.modulesPayload) := by
    rw [serialize_file_eq]
    simp [List.append_assoc]
  rw [hx]
  refine drop_append_of_length _ _ _ ?_
  rw [List.length_append, List.length_append, serialize_prefix_length curveId p hc]
  simp only [Prog.solversOffset, Prog.constraintsOffset, paramsOffset, headerStart,
    sizeOfProgHeader]

theorem serialize_drop_modules (curveId : List Nat) (p : Prog) (hc : curveId.length = 4) :
    (Prog.serialize curveId p).file.drop p.modulesOffset = p.modulesPayload := by
  have hx : (Prog.serialize curveId p).file
      = ((((ZOKRATES_MAGIC ++ FILE_VERSION ++ (Prog.header curveId p).write
          ++ List.replicate 20 0) ++ p.paramsPayload) ++ p.constraintsPayload)
          ++ p.solversPayload)
        ++ p.modulesPayload := by
    rw [serialize_file_eq]
    simp [List.append_assoc]
  rw [hx]
  refine drop_append_of_length _ _ _ ?_
  rw [List.length_append, List.length_append, List.length_append,
    serialize_prefix_length curveId p hc]
  simp only [Prog.modulesOffset, Prog.solversOffset, Prog.constraintsOffset, paramsOffset,
    headerStart, sizeOfProgHeader]

theorem serialize_file_length (curveId : List Nat) (p : Prog) (hc : curveId.length = 4) :
    (Prog.serialize curveId p).file.length
      = p.modulesOffset + p.modulesPayload.length := by
  rw [serialize_file_eq, List.length_append, serialize_prefix_length curveId p hc]
  simp only [List.length_append, Prog.modulesOffset, Prog.solversOffset,
    Prog.constraintsOffset, paramsOffset, headerStart, sizeOfProgHeader]
  omega

theorem serialize_header_wellFormed (curveId : List Nat) (p : Prog)
    (hc : curveId.length = 4)
    (hsize : (Prog.serialize curveId p).file.length < 18446744073709551616) :
    (Prog.header curveId p).wellFormed := by
  have hfl := serialize_file_length curveId p hc
  rw [hfl] at hsize
  simp only [Prog.modulesOffset, Prog.solversOffset, Prog.constraintsOffset, paramsOffset,
    headerStart, sizeOfProgHeader] at hsize
  refine ⟨hc, Nat.mod_lt _ (by norm_num), Nat.mod_lt _ (by norm_num), rfl, ?_⟩
  intro s hs
  simp only [Prog.header, List.mem_cons, List.not_mem_nil, or_false] at hs
  rcases hs with h | h | h | h
  all_goals subst h
  all_goals constructor
  all_goals simp only [Prog.modulesOffset, Prog.solversOffset, Prog.constraintsOffset,
    paramsOffset, headerStart, sizeOfProgHeader]
  all_goals omega

theorem serialize_read_header (curveId : List Nat) (p : Prog) (hc : curveId.length = 4)
    (hsize : (Prog.serialize curveId p).file.length < 18446744073709551616) :
    ProgHeader.read (Prog.serialize curveId p).file = .ok (Prog.header curveId p) := by
  have hx : (Prog.serialize curveId p).file
      = ZOKRATES_MAGIC ++ FILE_VERSION ++ (Prog.header curveId p).write
        ++ (List.replicate 20 0 ++ (p.paramsPayload ++ (p.constraintsPayload
          ++ (p.solversPayload ++ p.modulesPayload)))) := by
    rw [serialize_file_eq]
    simp only [List.append_assoc]
  rw [hx]
  exact ProgHeader.read_write (Prog.header curveId p)
    (serialize_header_wellFormed curveId p hc hsize) _

theorem serialize_decode_statements (curveId : List Nat) (p : Prog)
    (hc : curveId.length = 4) :
    decodeStatements ((Prog.serialize curveId p).file.drop p.constraintsOffset)
      = p.writtenStatements := by
  rw [serialize_drop_constraints curveId p hc]
  have hfail : decodeStatement (p.solversPayload ++ p.modulesPayload) = none := by
    have h7 : p.solversPayload ++ p.modulesPayload
        = 7 :: (p.solverTable.length :: (p.solverTable.map encodeSolver).flatten
            ++ p.modulesPayload) := by
      simp [Prog.solversPayload, encodeList]
    rw [h7]
    exact decodeStatement_list_tag _
  exact decodeStatements_encode_stops p.writtenStatements _ hfail

theorem serialize_read (curveId : List Nat) (p : Prog) (hc : curveId.length = 4) :
    Prog.read curveId (Prog.serialize curveId p).file (Prog.header curveId p)
      = .ok ⟨p.arguments, p.writtenStatements, p.returnCount % 4294967296,
             p.moduleMap, p.solverTable⟩ := by
  unfold Prog.read
  rw [if_neg (by simp [Prog.header])]
  have h0 : ((Prog.header curveId p).sectionAt 0).offset = paramsOffset := rfl
  have h1 : ((Prog.header curveId p).sectionAt 1).offset = p.constraintsOffset := rfl
  have h2 : ((Prog.header curveId p).sectionAt 2).offset = p.solversOffset := rfl
  have h3 : ((Prog.header curveId p).sectionAt 3).offset = p.modulesOffset := rfl
  rw [h0, h1, h2, h3, serialize_drop_params curveId p hc,
    serialize_drop_solvers curveId p hc, serialize_drop_modules curveId p hc]
  have hp : decodeList decodeParameter (p.paramsPayload ++ (p.constraintsPayload
      ++ (p.solversPayload ++ p.modulesPayload))) = some (p.arguments,
        p.constraintsPayload ++ (p.solversPayload ++ p.modulesPayload)) :=
    decodeList_encode encodeParameter decodeParameter decodeParameter_encode _ _
  have hsolv : decodeList decodeSolver (p.solversPayload ++ p.modulesPayload)
      = some (p.solverTable, p.modulesPayload) :=
    decodeList_encode encodeSolver decodeSolver decodeSolver_encode _ _
  have hmod : decodeList decodePair p.modulesPayload = some (p.moduleMap, []) := by
    have hx : p.modulesPayload = encodeList encodePair p.moduleMap ++ [] := by
      simp [Prog.modulesPayload]
    rw [hx]
    exact decodeList_encode encodePair decodePair decodePair_encode _ _
  rw [hp, hsolv, hmod]
  have hstmts : decodeStatements ((Prog.serialize curveId p).file.drop p.constraintsOffset)
      = p.writtenStatements := serialize_decode_statements curveId p hc
  simp only [hstmts, Prog.header]

/-! ## Claim theorems -/

/-- defaultProg is `Prog::default()`: the empty program. -/
def defaultProg : Prog := ⟨[], [], 0, [], []⟩

/-- C1 (amended): for every Program with no unconstrained variables whose
directive statements embed their solver definitions (none is a pre-indexed
reference), whose return count fits in u32, and whose serialized size fits
in u64, serializing and then reading the bytes back with the same field
type yields a Program equal to the original up to solver-index rewriting:
directive solver fields compare by resolved identity in the respective
solvers lists, not by embedded representation. -/
theorem c1_roundtrip (curveId : List Nat) (p : Prog)
    (hc : curveId.length = 4)
    (_hnu : p.unconstrainedCount = 0)
    (hnoref : stmtsNoRef p.statements = true)
    (hrc : p.returnCount < 4294967296)
    (hsize : (Prog.serialize curveId p).file.length < 18446744073709551616) :
    roundTripEquiv curveId p = some true := by
  simp only [roundTripEquiv, serialize_read_header curveId p hc hsize,
    serialize_read curveId p hc]
  have hequiv : stmtsEquiv p.solvers p.solverTable p.statements p.writtenStatements
      = true := by
    have hx := writeStatements_equiv p.solvers p.statements ⟨[]⟩
      (UnconstrainedVariableDetector.new p) [] hnoref
    simpa [Prog.solverTable, Prog.writtenStatements, Prog.folded] using hx
  have hrcmod : p.returnCount % 4294967296 = p.returnCount := Nat.mod_eq_of_lt hrc
  simp [progEquiv, hequiv, hrcmod]

/-- c1WitnessProg exercises every statement variant: one directive (whose
output is later constrained), one constraint, one opaque statement. -/
def c1WitnessProg : Prog :=
  ⟨[⟨some ⟨1, 2⟩, 7, true⟩],
   [.directive (.named 5 1 1) [3] [4], .constraint [4] [] [9], .log 2],
   1, [(100, 200)], []⟩

theorem c1_roundtrip_witness : roundTripEquiv bn128Id c1WitnessProg = some true :=
  c1_roundtrip bn128Id c1WitnessProg (by decide) (by decide) (by decide) (by decide)
    (by decide)

/-- c1RefProg carries a directive whose solver field is already a dense
index into the program's own solvers list; the Solver Indexer passes such
references through without interning them, so the written Solvers section
is empty and the reference dangles after the round trip. -/
def c1RefProg : Prog :=
  ⟨[], [.directive (.ref 0) [] [1], .constraint [1] [] []], 0, [], [.named 5 0 1]⟩

/-- C1 counterexample: `c1RefProg` has no unconstrained variable and
serializes successfully, yet the round trip is not equal up to
solver-index rewriting: the original directive resolves to the interned
solver `named 5 0 1` while the read-back directive resolves to nothing. -/
theorem c1_ref_counterexample :
    c1RefProg.unconstrainedCount = 0
    ∧ (Prog.serialize bn128Id c1RefProg).result = Except.ok 1
    ∧ roundTripEquiv bn128Id c1RefProg = some false := by
  refine ⟨rfl, rfl, ?_⟩
  rfl

/-- C3: the header's section table is written in the fixed order
Parameters, Constraints, Solvers, Modules with tags 1, 2, 3, 4 — but the
code constructs the fourth (module map) entry with `SectionType::Solvers`
(`serialize.rs` line 211), so the tag actually written for it is 3, not 4:
the bytes at offset 80 of a serialized default program are the u32
encoding of the Solvers tag. -/
theorem c3_fourth_section_tag :
    (SectionType.toNat .Parameters = 1 ∧ SectionType.toNat .Constraints = 2
      ∧ SectionType.toNat .Solvers = 3 ∧ SectionType.toNat .Modules = 4)
    ∧ (Prog.header bn128Id defaultProg).sections.map Section.ty
        = [.Parameters, .Constraints, .Solvers, .Solvers]
    ∧ ((Prog.serialize bn128Id defaultProg).file.drop 80).take 4
        = u32LE (SectionType.toNat .Solvers) := by
  refine ⟨⟨rfl, rfl, rfl, rfl⟩, rfl, ?_⟩
  rfl

/-- C4: a program with at least one variable produced but never consumed
by a constraint makes `serialize` fail with `UnconstrainedVariable(count)`
— and only after the complete write pass: the sink at that moment holds a
fully formed, structurally valid file (the real header parses back and the
whole read path succeeds on it). -/
theorem c4_unconstrained_error (curveId : List Nat) (p : Prog) (c : Nat)
    (hc : curveId.length = 4)
    (hcount : p.unconstrainedCount = c)
    (hpos : 0 < c)
    (hsize : (Prog.serialize curveId p).file.length < 18446744073709551616) :
    (Prog.serialize curveId p).result = .error (.unconstrainedVariable c)
    ∧ ProgHeader.read (Prog.serialize curveId p).file = .ok (Prog.header curveId p)
    ∧ (Prog.read curveId (Prog.serialize curveId p).file
        (Prog.header curveId p)).isOk = true := by
  refine ⟨?_, serialize_read_header curveId p hc hsize, ?_⟩
  · have hcount' : p.detectorAfter.count = c := hcount
    simp only [Prog.serialize]
    unfold UnconstrainedVariableDetector.finalize
    rw [hcount', if_neg (by omega)]
  · rw [serialize_read curveId p hc]
    rfl

/-- c4WitnessProg writes variable 5 in a constraint and never consumes
it. -/
def c4WitnessProg : Prog := ⟨[], [.constraint [] [5] []], 0, [], []⟩

theorem c4_unconstrained_error_witness :
    (Prog.serialize bn128Id c4WitnessProg).result
        = .error (.unconstrainedVariable 1)
    ∧ ProgHeader.read (Prog.serialize bn128Id c4WitnessProg).file
        = .ok (Prog.header bn128Id c4WitnessProg)
    ∧ (Prog.read bn128Id (Prog.serialize bn128Id c4WitnessProg).file
        (Prog.header bn128Id c4WitnessProg)).isOk = true :=
  c4_unconstrained_error bn128Id c4WitnessProg 1 (by decide) (by decide) (by decide)
    (by decide)

/-- C2: on success `serialize` returns the number of `Constraint`-variant
statements written (the count over the transformed statement sequence the
passes actually emit, which the pre-pass counter coincides with because
both passes map each statement to exactly one statement of the same
variant class); the header's `constraint_count` stores that same number,
and it equals the number of `Constraint` statements decodable from the
on-disk Constraints section. -/
theorem c2_constraint_count (curveId : List Nat) (p : Prog) (n : Nat)
    (hok : (Prog.serialize curveId p).result = Except.ok n)
    (hc : curveId.length = 4)
    (hlen : p.statements.length < 4294967296)
    (hsize : (Prog.serialize curveId p).file.length < 18446744073709551616) :
    n = p.writtenStatements.countP Statement.isConstraint
    ∧ ProgHeader.read (Prog.serialize curveId p).file = .ok (Prog.header curveId p)
    ∧ (Prog.header curveId p).constraintCount = n
    ∧ (decodeStatements ((Prog.serialize curveId p).file.drop
        p.constraintsOffset)).countP Statement.isConstraint = n := by
  have hn : n = p.constraintCountW := by
    simp only [Prog.serialize] at hok
    cases hfin : p.detectorAfter.finalize with
    | ok u => rw [hfin] at hok; cases hok; rfl
    | error c => rw [hfin] at hok; cases hok
  have hcount : p.constraintCountW = p.statements.countP Statement.isConstraint :=
    writeStatements_count p.statements ⟨[]⟩ (UnconstrainedVariableDetector.new p)
  have hwritten : p.writtenStatements.countP Statement.isConstraint
      = p.statements.countP Statement.isConstraint :=
    writeStatements_out_countP p.statements ⟨[]⟩ (UnconstrainedVariableDetector.new p)
  have hle : p.statements.countP Statement.isConstraint ≤ p.statements.length :=
    List.countP_le_length _
  refine ⟨by omega, serialize_read_header curveId p hc hsize, ?_, ?_⟩
  · show p.constraintCountW % 4294967296 = n
    rw [hn]
    exact Nat.mod_eq_of_lt (by omega)
  · rw [serialize_decode_statements curveId p hc]
    omega

/-- c2WitnessProg has 3 constraints and 2 directives (with no produced
variables, so serialization succeeds). -/
def c2WitnessProg : Prog :=
  ⟨[], [.constraint [1] [] [], .directive (.named 4 1 0) [1] [],
    .constraint [2] [] [], .directive (.named 4 1 0) [2] [], .constraint [3] [] []],
   0, [], []⟩

theorem c2_constraint_count_witness :
    3 = c2WitnessProg.writtenStatements.countP Statement.isConstraint
    ∧ ProgHeader.read (Prog.serialize bn128Id c2WitnessProg).file
        = .ok (Prog.header bn128Id c2WitnessProg)
    ∧ (Prog.header bn128Id c2WitnessProg).constraintCount = 3
    ∧ (decodeStatements ((Prog.serialize bn128Id c2WitnessProg).file.drop
        c2WitnessProg.constraintsOffset)).countP Statement.isConstraint = 3 :=
  c2_constraint_count bn128Id c2WitnessProg 3 rfl (by decide) (by decide) (by decide)

/-- C5: a stream whose first 4 bytes differ from the magic, or whose next
4 bytes differ from the version constant, is rejected by `read_header`
with an invalid-data error (`InvalidFormat`); conversely every well-formed
header value writes to a 92-byte body that decodes back exactly after a
correct magic and version. -/
theorem c5_magic_version_guard :
    (∀ l : List Nat, 4 ≤ l.length → l.take 4 ≠ ZOKRATES_MAGIC →
        ProgHeader.read l = .error .invalidMagic)
    ∧ (∀ l : List Nat, 8 ≤ l.length → l.take 4 = ZOKRATES_MAGIC →
        (l.drop 4).take 4 ≠ FILE_VERSION →
        ProgHeader.read l = .error .invalidVersion)
    ∧ HeaderError.isInvalidData .invalidMagic = true
    ∧ HeaderError.isInvalidData .invalidVersion = true
    ∧ ∀ h : ProgHeader, h.wellFormed →
        h.write.length = 92
        ∧ ProgHeader.read (ZOKRATES_MAGIC ++ FILE_VERSION ++ h.write) = .ok h := by
  refine ⟨?_, ?_, rfl, rfl, ?_⟩
  · intro l hl hm
    have h1 : readBytes 4 l = some (l.take 4, l.drop 4) := by
      unfold readBytes
      rw [if_pos hl]
    unfold ProgHeader.read
    rw [h1]
    simp [hm]
  · intro l hl hm hv
    have h1 : readBytes 4 l = some (l.take 4, l.drop 4) := by
      unfold readBytes
      rw [if_pos (by omega)]
    have h2 : readBytes 4 (l.drop 4) = some ((l.drop 4).take 4, (l.drop 4).drop 4) := by
      unfold readBytes
      rw [if_pos (by simp; omega)]
    unfold ProgHeader.read
    rw [h1]
    simp [hm, h2, hv]
  · intro h hwf
    refine ⟨ProgHeader.write_length92 h hwf.1 hwf.2.2.2.1, ?_⟩
    have hx := ProgHeader.read_write h hwf []
    simpa using hx

theorem c5_magic_version_guard_witness :
    ProgHeader.read [0, 0, 0, 0] = .error .invalidMagic
    ∧ ProgHeader.read (ZOKRATES_MAGIC ++ [9, 9, 9, 9]) = .error .invalidVersion
    ∧ ProgHeader.read (ZOKRATES_MAGIC ++ FILE_VERSION
        ++ (Prog.header bn128Id defaultProg).write)
        = .ok (Prog.header bn128Id defaultProg) :=
  ⟨c5_magic_version_guard.1 [0, 0, 0, 0] (by decide) (by decide),
   c5_magic_version_guard.2.1 (ZOKRATES_MAGIC ++ [9, 9, 9, 9]) (by decide) (by decide)
     (by decide),
   (c5_magic_version_guard.2.2.2.2 (Prog.header bn128Id defaultProg) (by decide)).2⟩

theorem Prog.read_ne_curveMismatch (curveId file : List Nat) (h : ProgHeader)
    (hcv : h.curveId = curveId) :
    Prog.read curveId file h ≠ .error .curveMismatch := by
  unfold Prog.read
  rw [if_neg (by simp [hcv])]
  repeat' split
  all_goals simp

/-- C6: `read` fails fast with the curve-mismatch panic exactly when the
header's curve id differs from the curve identity of the field type the
caller requested; with a matching curve id that failure cannot occur. -/
theorem c6_curve_guard (curveId file : List Nat) (h : ProgHeader) :
    Prog.read curveId file h = .error .curveMismatch ↔ h.curveId ≠ curveId := by
  constructor
  · intro hr
    by_contra hcv
    exact Prog.read_ne_curveMismatch curveId file h hcv hr
  · intro hcv
    unfold Prog.read
    rw [if_pos hcv]

theorem c6_curve_guard_witness :
    Prog.read bls12_381Id [] (Prog.header bn128Id defaultProg)
      = .error .curveMismatch :=
  (c6_curve_guard bls12_381Id [] (Prog.header bn128Id defaultProg)).mpr (by decide)

/-- C7: the lazy constraint decoder yields exactly the decodable prefix of
records: positioned after any sequence of well-formed records, a record
that fails to decode terminates the yielded sequence at that point — the
sequence type has no error channel, so nothing is propagated to the
consumer. -/
theorem c7_decode_failure_terminates (ss : List Statement) (tail : List Nat)
    (hfail : decodeStatement tail = none) :
    decodeStatements ((ss.map encodeStatement).flatten ++ tail) = ss :=
  decodeStatements_encode_stops ss tail hfail

theorem c7_decode_failure_terminates_witness :
    decodeStatements (([Statement.log 3].map encodeStatement).flatten ++ [7, 7])
      = [Statement.log 3] :=
  c7_decode_failure_terminates [Statement.log 3] [7, 7] (by decide)

/-- replicateDirProg is a program of `n` identical directive statements. -/
def replicateDirProg (n : Nat) (sv : Solver) (ins outs : List Nat) : Prog :=
  ⟨[], List.replicate n (.directive sv ins outs), 0, [], []⟩

theorem replicateDirProg_solverTable (nm a b m : Nat) (ins outs : List Nat) :
    (replicateDirProg (m + 1) (.named nm a b) ins outs).solverTable
      = [Solver.named nm a b] := by
  show (writeStatements ⟨[]⟩ _ (List.replicate (m + 1)
    (Statement.directive (.named nm a b) ins outs))).1.solvers = _
  rw [List.replicate_succ]
  simp [writeStatements, SolverIndexer.foldStatement, lookupSolver,
    writeStatements_replicate_solvers nm a b ins outs m]

theorem replicateDirProg_written (nm a b m : Nat) (ins outs : List Nat) :
    (replicateDirProg (m + 1) (.named nm a b) ins outs).writtenStatements
      = List.replicate (m + 1) (Statement.directive (.ref 0) ins outs) := by
  show (writeStatements ⟨[]⟩ _ (List.replicate (m + 1)
    (Statement.directive (.named nm a b) ins outs))).2.2.2 = _
  rw [List.replicate_succ, List.replicate_succ]
  simp [writeStatements, SolverIndexer.foldStatement, lookupSolver, foldDetector_snd,
    writeStatements_replicate_out nm a b ins outs m]

/-- C8: a program of `n` directive statements all embedding the same
solver interns exactly one Solvers-section entry and writes `n` directive
records each referencing dense index 0; in general the interned table is
the first-encounter-ordered deduplication of the embedded solvers of the
statement stream (next index = current table size), and the Solvers
section payload lists the table in exactly that index order. -/
theorem c8_solver_interning (n nm a b : Nat) (ins outs : List Nat) (hn : 0 < n) :
    (replicateDirProg n (.named nm a b) ins outs).solverTable = [.named nm a b]
    ∧ (replicateDirProg n (.named nm a b) ins outs).writtenStatements
        = List.replicate n (Statement.directive (.ref 0) ins outs)
    ∧ (replicateDirProg n (.named nm a b) ins outs).solversPayload
        = encodeList encodeSolver [.named nm a b]
    ∧ ∀ q : Prog, q.solverTable = firstSeen [] (embeddedSolvers q.statements) := by
  obtain ⟨m, rfl⟩ : ∃ m, n = m + 1 := ⟨n - 1, by omega⟩
  refine ⟨replicateDirProg_solverTable nm a b m ins outs,
    replicateDirProg_written nm a b m ins outs, ?_, ?_⟩
  · show encodeList encodeSolver
      (replicateDirProg (m + 1) (.named nm a b) ins outs).solverTable = _
    rw [replicateDirProg_solverTable nm a b m ins outs]
  · intro q
    exact writeStatements_table q.statements ⟨[]⟩ (UnconstrainedVariableDetector.new q)

theorem c8_solver_interning_witness :
    (replicateDirProg 2 (.named 9 2 1) [1, 2] []).solverTable = [.named 9 2 1]
    ∧ (replicateDirProg 2 (.named 9 2 1) [1, 2] []).writtenStatements
        = List.replicate 2 (Statement.directive (.ref 0) [1, 2] []) :=
  ⟨(c8_solver_interning 2 9 2 1 [1, 2] [] (by decide)).1,
   (c8_solver_interning 2 9 2 1 [1, 2] [] (by decide)).2.1⟩

/-- C9: Parameter identity is span-blind: the derived equality, ordering
and hash feed are unchanged under any replacement of the span fields, and
two parameters with identical `(id, private)` compare equal, order as
`Ordering.eq`, and feed identical data to the hasher whatever their
spans. -/
theorem c9_parameter_span_ignored :
    (∀ (V : Type) (beqV : V → V → Bool) (s s' t t' : Option Span) (v v' : V)
        (b b' : Bool),
      Parameter.beqP beqV ⟨s, v, b⟩ ⟨s', v', b'⟩
        = Parameter.beqP beqV ⟨t, v, b⟩ ⟨t', v', b'⟩)
    ∧ (∀ (V : Type) (cmpV : V → V → Ordering) (s s' t t' : Option Span) (v v' : V)
        (b b' : Bool),
      Parameter.cmpP cmpV ⟨s, v, b⟩ ⟨s', v', b'⟩
        = Parameter.cmpP cmpV ⟨t, v, b⟩ ⟨t', v', b'⟩)
    ∧ (∀ (V : Type) (hV : V → List Nat) (s t : Option Span) (v : V) (b : Bool),
      Parameter.hashFeed hV ⟨s, v, b⟩ = Parameter.hashFeed hV ⟨t, v, b⟩)
    ∧ (∀ (s s' : Option Span) (v : Nat) (b : Bool),
      Parameter.beqP (fun x y => decide (x = y)) ⟨s, v, b⟩ ⟨s', v, b⟩ = true
      ∧ Parameter.cmpP compare ⟨s, v, b⟩ ⟨s', v, b⟩ = Ordering.eq
      ∧ Parameter.hashFeed (fun x => [x]) ⟨s, v, b⟩
          = Parameter.hashFeed (fun x => [x]) ⟨s', v, b⟩) := by
  refine ⟨fun V beqV s s' t t' v v' b b' => rfl,
    fun V cmpV s s' t t' v v' b b' => rfl,
    fun V hV s t v b => rfl,
    fun s s' v b => ⟨?_, ?_, rfl⟩⟩
  · simp [Parameter.beqP]
  · have hv : compare v v = Ordering.eq := by
      simp [Nat.compare_eq_eq]
    have hb : compare b b = Ordering.eq := by
      cases b <;> rfl
    simp [Parameter.cmpP, hv, hb, Ordering.then]

theorem forall2_getD_offset :
    ∀ {l l' : List Section}, List.Forall₂ (fun a b => a.offset = b.offset) l l' →
      ∀ (i : Nat), (l.getD i ⟨.Parameters, 0, 0⟩).offset
        = (l'.getD i ⟨.Parameters, 0, 0⟩).offset := by
  intro l l' hf
  induction hf with
  | nil => intro i; rfl
  | cons hab _ ih =>
    intro i
    cases i with
    | zero => simpa using hab
    | succ j => simpa using ih j

/-- C10: `read_header` validates each of the four section tags only
individually (any header whose tags are all in 1..4 round-trips, including
the file `serialize` actually produces, whose fourth entry is tagged
Solvers), rejects a tag outside 1..4 with an invalid-data error, and the
subsequent `read` resolves sections purely by position: its result is
unchanged under any modification of the stored tags (and of the stored
constraint count) that keeps curve id, return count and offsets. -/
theorem c10_positional_sections :
    (∀ h : ProgHeader, h.wellFormed →
        ProgHeader.read (ZOKRATES_MAGIC ++ FILE_VERSION ++ h.write) = .ok h)
    ∧ ((ProgHeader.read (Prog.serialize bn128Id defaultProg).file).toOption.map
          (fun hh => hh.sections.map Section.ty)
        = some [SectionType.Parameters, .Constraints, .Solvers, .Solvers])
    ∧ (∀ (cid : List Nat) (cc rc t : Nat) (rest : List Nat),
        cid.length = 4 → t < 4294967296 → SectionType.tryFrom t = none →
        ProgHeader.read (ZOKRATES_MAGIC ++ FILE_VERSION ++ cid ++ u32LE cc
          ++ u32LE rc ++ u32LE t ++ rest) = .error .invalidSectionType)
    ∧ (∀ (curveId file : List Nat) (h h' : ProgHeader),
        h.curveId = h'.curveId → h.returnCount = h'.returnCount →
        List.Forall₂ (fun a b => a.offset = b.offset) h.sections h'.sections →
        Prog.read curveId file h = Prog.read curveId file h') := by
  refine ⟨?_, ?_, ?_, ?_⟩
  · intro h hwf
    have hx := ProgHeader.read_write h hwf []
    simpa using hx
  · rfl
  · intro cid cc rc t rest hcid ht htry
    have hstream : ZOKRATES_MAGIC ++ FILE_VERSION ++ cid ++ u32LE cc ++ u32LE rc
          ++ u32LE t ++ rest
        = ZOKRATES_MAGIC ++ (FILE_VERSION ++ (cid ++ (u32LE cc ++ (u32LE rc
          ++ (u32LE t ++ rest))))) := by
      simp [List.append_assoc]
    rw [hstream]
    simp only [ProgHeader.read,
      readBytes_append 4 ZOKRATES_MAGIC rfl,
      readBytes_append 4 FILE_VERSION rfl,
      readBytes_append 4 cid hcid,
      readU32_u32LE, ne_eq, not_true_eq_false, if_false]
    simp only [ProgHeader.readSection, readU32_u32LE, Nat.mod_eq_of_lt ht, htry]
  · intro curveId file h h' hcv hrc hsec
    unfold Prog.read
    unfold ProgHeader.sectionAt
    have h0 := forall2_getD_offset hsec 0
    have h1 := forall2_getD_offset hsec 1
    have h2 := forall2_getD_offset hsec 2
    have h3 := forall2_getD_offset hsec 3
    rw [hcv, hrc, h0, h1, h2, h3]

/-- c10HeaderA and c10HeaderB differ only in the fourth section tag. -/
def c10HeaderA : ProgHeader :=
  ⟨bn128Id, 0, 0, [⟨.Parameters, 120, 2⟩, ⟨.Constraints, 122, 0⟩,
    ⟨.Solvers, 122, 2⟩, ⟨.Modules, 124, 2⟩]⟩

/-- c10HeaderB carries tag Solvers on its fourth entry, as `serialize`
writes. -/
def c10HeaderB : ProgHeader :=
  ⟨bn128Id, 0, 0, [⟨.Parameters, 120, 2⟩, ⟨.Constraints, 122, 0⟩,
    ⟨.Solvers, 122, 2⟩, ⟨.Solvers, 124, 2⟩]⟩

theorem c10_positional_sections_witness :
    ProgHeader.read (ZOKRATES_MAGIC ++ FILE_VERSION ++ c10HeaderB.write)
        = .ok c10HeaderB
    ∧ ProgHeader.read (ZOKRATES_MAGIC ++ FILE_VERSION ++ bn128Id ++ u32LE 0
        ++ u32LE 0 ++ u32LE 9 ++ []) = .error .invalidSectionType
    ∧ Prog.read bn128Id [] c10HeaderA = Prog.read bn128Id [] c10HeaderB :=
  ⟨c10_positional_sections.1 c10HeaderB (by decide),
   c10_positional_sections.2.2.1 bn128Id 0 0 9 [] (by decide) (by decide) (by decide),
   c10_positional_sections.2.2.2 bn128Id [] c10HeaderA c10HeaderB rfl rfl
     (by simp [c10HeaderA, c10HeaderB])⟩

end Zok
